import Mathlib

/-!
Shallow embedding of the file-management backend (Express + Mongoose):
the FileRecord model with its pre-save file-type classification
(backend/models/FileRecord.js), and the file controller operations
(create / update / delete / list / export) with their blob-store and
record-store side effects.  Machine state is explicit: the blob store is
the list of paths present on disk, the record store is the list of rows.
Database failures (insert / save errors) and unlink failures are injected
as explicit booleans, standing for the exceptional paths of the source.
-/

namespace FMS

/-- The closed file-type enumeration of the FileRecord schema. -/
inductive FileType
  | PDF
  | DOCX
  | XLSX
  | Image
  | Other
deriving DecidableEq, Repr

def fileTypeToString : FileType → String
  | .PDF => "PDF"
  | .DOCX => "DOCX"
  | .XLSX => "XLSX"
  | .Image => "Image"
  | .Other => "Other"

/-- Characters of the basename: everything after the last path separator. -/
def afterLastSlash (l : List Char) : List Char :=
  l.foldl (fun acc c => if c = '/' then [] else acc ++ [c]) []

/-- Model of node `path.extname`: the suffix of the basename starting at its
last dot, or the empty string when there is no dot or the only dot is the
leading character (dotfiles). -/
def extname (s : String) : String :=
  let b := afterLastSlash s.data
  let rev := b.reverse
  let pre := rev.takeWhile (fun c => c ≠ '.')
  if pre.length = b.length then ""
  else if pre.length + 1 = b.length then ""
  else String.mk ('.' :: pre.reverse)

/-- Model of `path.basename(s, extname s)`: the basename with its extension
removed. -/
def basenameNoExt (s : String) : String :=
  (String.mk (afterLastSlash s.data)).dropRight (extname s).length

/-- Model of JS `String.prototype.toLowerCase` (ASCII range). -/
def jsToLower (s : String) : String := String.mk (s.data.map Char.toLower)

/-- Model of JS `String.prototype.trim`: strip whitespace at both ends. -/
def jsTrim (s : String) : String :=
  String.mk (((s.data.dropWhile Char.isWhitespace).reverse.dropWhile Char.isWhitespace).reverse)

/-- The pre-save switch of FileRecordSchema: classify a stored file name by
its lower-cased extension. -/
def classifyFileName (fileName : String) : FileType :=
  let ext := jsToLower (extname fileName)
  if ext = ".pdf" then .PDF
  else if ext = ".docx" then .DOCX
  else if ext = ".doc" then .DOCX
  else if ext = ".xlsx" then .XLSX
  else if ext = ".xls" then .XLSX
  else if ext = ".jpg" then .Image
  else if ext = ".jpeg" then .Image
  else if ext = ".png" then .Image
  else if ext = ".gif" then .Image
  else if ext = ".bmp" then .Image
  else if ext = ".webp" then .Image
  else .Other

/-- One row of the record store.  `fileDate` and `letterReferenceNumber`
are nullable; `uploadDateTime` is milliseconds since the epoch. -/
structure FileRecord where
  id : Nat
  description : String
  fileName : String
  originalName : String
  filePath : String
  fileType : FileType
  fileSize : Nat
  mimeType : String
  fileDate : Option String
  letterReferenceNumber : Option String
  uploadedBy : Nat
  uploadDateTime : Nat
deriving DecidableEq, Repr

/-- `req.file` as produced by the multer disk-storage middleware: by the
time the controller runs, the bytes are already on disk at `path`. -/
structure UploadedFile where
  filename : String
  originalname : String
  path : String
  size : Nat
  mimetype : String
deriving DecidableEq, Repr

/-- Machine state: the blob store (paths present on disk) and the record
store (rows).  Paths are unique on disk, so the blob list is read as a
set of paths. -/
structure SysState where
  blobs : List String
  rows : List FileRecord
deriving DecidableEq, Repr

/-- Model of `fs.unlinkSync p` on a store that holds `p` (and of the
guarded unlink after an `fs.existsSync` check): the path is removed. -/
def unlink (blobs : List String) (p : String) : List String :=
  blobs.filter (fun q => q ≠ p)

/-- Model of `fs.existsSync`. -/
def existsSync (blobs : List String) (p : String) : Bool :=
  blobs.contains p

/-- Mongoose validation of the FileRecord schema: required fields
non-empty, maxlength bounds.  (`description` and `letterReferenceNumber`
carry `trim: true`, so the stored values are already trimmed by the time
the validators run; the required check on a string fails on the empty
string.) -/
def validateRecord (r : FileRecord) : Bool :=
  r.description ≠ "" && r.description.length ≤ 2000 &&
  r.fileName ≠ "" && r.originalName ≠ "" && r.filePath ≠ "" &&
  (match r.letterReferenceNumber with
   | some ref => ref.length ≤ 255
   | none => true)

/-- The pre('save') middleware: when `fileName` is non-empty, re-derive
`fileType` from its extension. -/
def preSaveHook (r : FileRecord) : FileRecord :=
  if r.fileName ≠ "" then { r with fileType := classifyFileName r.fileName } else r

/-- Model of `document.save()`: validation runs first, then the pre-save
hook, then the write (whose failure is injected as `dbFail`).  `none` is
the thrown error. -/
def saveRecord (dbFail : Bool) (r : FileRecord) : Option FileRecord :=
  if validateRecord r then
    let r' := preSaveHook r
    if dbFail then none else some r'
  else none

/-- `FileRecord.findById` over the row list. -/
def findById (rows : List FileRecord) (id : Nat) : Option FileRecord :=
  rows.find? (fun r => r.id = id)

/-- Persisting a saved document: the row with this id is replaced. -/
def replaceById (rows : List FileRecord) (id : Nat) (r' : FileRecord) : List FileRecord :=
  rows.map (fun r => if r.id = id then r' else r)

/-- `value || null` on an optional string field: empty string and absent
both become null. -/
def jsOrNull (v : Option String) : Option String :=
  match v with
  | some s => if s = "" then none else some s
  | none => none

/-! ## createFileRecord (POST /api/files) -/

/-- Outcome of `createFileRecord`: 201 with the saved row, 400 validation
error, or the 500 catch branch. -/
inductive CreateResult
  | created (r : FileRecord)
  | validationError (msg : String)
  | serverError
deriving DecidableEq, Repr

def CreateResult.isCreated : CreateResult → Bool
  | .created _ => true
  | _ => false

/-- `createFileRecord` from the file controller.  `description`,
`fileDate`, `letterReferenceNumber` are the body fields (`none` =
absent), `file` is `req.file`, `userId` is `req.user.id`, `newId` is the
id Mongo assigns to the new document, `now` is `Date.now`, `dbFail`
injects a failing insert.  Multer has already written the blob of `file`
to disk, so `f.path` is in the blob store on entry. -/
def createFileRecord (st : SysState) (description fileDate letterReferenceNumber : Option String)
    (file : Option UploadedFile) (userId : Nat) (newId : Nat) (now : Nat) (dbFail : Bool) :
    CreateResult × SysState :=
  let descBad : Bool :=
    match description with
    | none => true
    | some d => jsTrim d = ""
  if descBad then
    match file with
    | some f => (.validationError "Description is required", { st with blobs := unlink st.blobs f.path })
    | none => (.validationError "Description is required", st)
  else
    match file with
    | none => (.validationError "Please upload a file", st)
    | some f =>
      let rec0 : FileRecord :=
        { id := newId
          description := jsTrim (description.getD "")
          fileName := f.filename
          originalName := f.originalname
          filePath := f.path
          fileType := .Other
          fileSize := f.size
          mimeType := f.mimetype
          fileDate := jsOrNull fileDate
          letterReferenceNumber := jsOrNull letterReferenceNumber
          uploadedBy := userId
          uploadDateTime := now }
      match saveRecord dbFail rec0 with
      | some r' => (.created r', { st with rows := st.rows ++ [r'] })
      | none =>
        if existsSync st.blobs f.path then
          (.serverError, { st with blobs := unlink st.blobs f.path })
        else
          (.serverError, st)

/-! ## updateFileRecord (PUT /api/files/:id) -/

inductive UpdateResult
  | updated (r : FileRecord)
  | notFound
  | serverError
deriving DecidableEq, Repr

def UpdateResult.isUpdated : UpdateResult → Bool
  | .updated _ => true
  | _ => false

/-- The scalar-field update block of `updateFileRecord` (lines 234-245):
`if (description) record.description = description.trim();
 if (fileDate !== undefined) record.fileDate = fileDate || null;
 if (letterReferenceNumber !== undefined) record.letterReferenceNumber = letterReferenceNumber || null;` -/
def applyScalarUpdates (r : FileRecord)
    (description fileDate letterReferenceNumber : Option String) : FileRecord :=
  let r1 :=
    match description with
    | some d => if d ≠ "" then { r with description := jsTrim d } else r
    | none => r
  let r2 :=
    match fileDate with
    | some fd => { r1 with fileDate := jsOrNull (some fd) }
    | none => r1
  let r3 :=
    match letterReferenceNumber with
    | some lr => { r2 with letterReferenceNumber := jsOrNull (some lr) }
    | none => r2
  r3

/-- `updateFileRecord` from the file controller.  When a replacement file
is carried, the old blob is unlinked (guarded by existsSync), the file
fields are overwritten, then the document is saved; the catch branch
unlinks the new blob. -/
def updateFileRecord (st : SysState) (id : Nat)
    (description fileDate letterReferenceNumber : Option String)
    (file : Option UploadedFile) (dbFail : Bool) : UpdateResult × SysState :=
  match findById st.rows id with
  | none =>
    match file with
    | some f => (.notFound, { st with blobs := unlink st.blobs f.path })
    | none => (.notFound, st)
  | some r0 =>
    let r1 := applyScalarUpdates r0 description fileDate letterReferenceNumber
    match file with
    | none =>
      match saveRecord dbFail r1 with
      | some r' => (.updated r', { st with rows := replaceById st.rows id r' })
      | none => (.serverError, st)
    | some f =>
      let blobs1 :=
        if r0.filePath ≠ "" && existsSync st.blobs r0.filePath then
          unlink st.blobs r0.filePath
        else st.blobs
      let r2 :=
        { r1 with
          fileName := f.filename
          originalName := f.originalname
          filePath := f.path
          fileSize := f.size
          mimeType := f.mimetype }
      match saveRecord dbFail r2 with
      | some r' => (.updated r', { blobs := blobs1, rows := replaceById st.rows id r' })
      | none =>
        let blobs2 := if existsSync blobs1 f.path then unlink blobs1 f.path else blobs1
        (.serverError, { blobs := blobs2, rows := st.rows })

/-! ## deleteFileRecord (DELETE /api/files/:id) -/

inductive DeleteResult
  | deleted
  | notFound
  | serverError
deriving DecidableEq, Repr

/-- `deleteFileRecord` from the file controller.  The unlink of the blob
runs inside the shared try block, so a thrown unlink error (injected as
`unlinkFail`) lands in the catch before the row delete; `dbFail` injects
a failing `findByIdAndDelete`. -/
def deleteFileRecord (st : SysState) (id : Nat) (unlinkFail : Bool) (dbFail : Bool) :
    DeleteResult × SysState :=
  match findById st.rows id with
  | none => (.notFound, st)
  | some r0 =>
    if r0.filePath ≠ "" && existsSync st.blobs r0.filePath then
      if unlinkFail then (.serverError, st)
      else
        let st1 : SysState := { st with blobs := unlink st.blobs r0.filePath }
        if dbFail then (.serverError, st1)
        else (.deleted, { st1 with rows := st1.rows.filter (fun r => r.id ≠ id) })
    else
      if dbFail then (.serverError, st)
      else (.deleted, { st with rows := st.rows.filter (fun r => r.id ≠ id) })

/-! ## Query construction (getFileRecords lines 31-55, exportToExcel lines 392-412) -/

/-- The Mongo query object built by the controllers: an optional
case-insensitive regex on `description`, an optional exact `fileType`,
and optional `$gte`/`$lte` bounds on `uploadDateTime` (milliseconds). -/
structure MongoQuery where
  descrRegex : Option String
  fileTypeEq : Option String
  uploadGte : Option Nat
  uploadLte : Option Nat
deriving DecidableEq, Repr

def msPerDay : Nat := 86400000

/-- `new Date(dateString)` on a plain calendar date: midnight (start of
day) of that date, in milliseconds.  Calendar dates are modelled as day
indices since the epoch. -/
def dateStartMs (day : Nat) : Nat := day * msPerDay

/-- `end.setHours(23, 59, 59, 999)` applied to the parsed end date:
23:59:59.999 of that calendar day, in milliseconds. -/
def dateEndOfDayMs (day : Nat) : Nat := day * msPerDay + (msPerDay - 1)

/-- Query construction of `getFileRecords`: search regex when `search` is
truthy, exact fileType when truthy and not the `All` sentinel, and the
date-range bounds on `uploadDateTime`. -/
def buildListQuery (search fileType : Option String) (startDate endDate : Option Nat) :
    MongoQuery :=
  let q0 : MongoQuery := ⟨none, none, none, none⟩
  let q1 :=
    match search with
    | some s => if s ≠ "" then { q0 with descrRegex := some s } else q0
    | none => q0
  let q2 :=
    match fileType with
    | some ft => if ft ≠ "" && ft ≠ "All" then { q1 with fileTypeEq := some ft } else q1
    | none => q1
  let q3 :=
    match startDate with
    | some d => { q2 with uploadGte := some (dateStartMs d) }
    | none => q2
  match endDate with
  | some d => { q3 with uploadLte := some (dateEndOfDayMs d) }
  | none => q3

/-- Query construction of `exportToExcel` (its comment in the source:
"Build query (same as getFileRecords)"). -/
def buildExportQuery (search fileType : Option String) (startDate endDate : Option Nat) :
    MongoQuery :=
  let q0 : MongoQuery := ⟨none, none, none, none⟩
  let q1 :=
    match search with
    | some s => if s ≠ "" then { q0 with descrRegex := some s } else q0
    | none => q0
  let q2 :=
    match fileType with
    | some ft => if ft ≠ "" && ft ≠ "All" then { q1 with fileTypeEq := some ft } else q1
    | none => q1
  let q3 :=
    match startDate with
    | some d => { q2 with uploadGte := some (dateStartMs d) }
    | none => q2
  match endDate with
  | some d => { q3 with uploadLte := some (dateEndOfDayMs d) }
  | none => q3

/-- Does `needle` occur as a contiguous block of `hay`? -/
def listContainsBlock (hay needle : List Char) : Bool :=
  match hay with
  | [] => needle.isEmpty
  | _ :: t => needle.isPrefixOf hay || listContainsBlock t needle

/-- Case-insensitive contains, the effect of
`{ $regex: search, $options: 'i' }` on a plain search string. -/
def strContainsCI (hay needle : String) : Bool :=
  listContainsBlock (hay.data.map Char.toLower) (needle.data.map Char.toLower)

/-- Evaluation of the Mongo query object against a row. -/
def matchesQuery (q : MongoQuery) (r : FileRecord) : Bool :=
  (match q.descrRegex with
   | some s => strContainsCI r.description s
   | none => true) &&
  (match q.fileTypeEq with
   | some ft => fileTypeToString r.fileType = ft
   | none => true) &&
  (match q.uploadGte with
   | some t => t ≤ r.uploadDateTime
   | none => true) &&
  (match q.uploadLte with
   | some t => r.uploadDateTime ≤ t
   | none => true)

/-! ## Sorting -/

/-- The allow-list `validSortFields` of `getFileRecords`. -/
def validSortFields : List String :=
  ["uploadDateTime", "description", "fileType", "fileDate"]

/-- Sort field chosen by `getFileRecords`: the request's `sortBy`
(default `uploadDateTime`), replaced by `uploadDateTime` when outside the
allow-list. -/
def listSortField (sortBy : Option String) : String :=
  let sb := sortBy.getD "uploadDateTime"
  if validSortFields.contains sb then sb else "uploadDateTime"

/-- Sort field chosen by `exportToExcel`: the request's `sortBy`
(default `uploadDateTime`), used directly — `sortOptions[sortBy] = ...`
with no allow-list check. -/
def exportSortField (sortBy : Option String) : String :=
  sortBy.getD "uploadDateTime"

/-- `sortOrder === 'asc' ? 1 : -1`, identical in both controllers. -/
def sortDirection (sortOrder : Option String) : Int :=
  if sortOrder = some "asc" then 1 else -1

/-- Comparison key of the record store for a named sort field (the store
compares the stored values of that field; a field outside the schema
compares all rows equal). -/
def cmpByField (field : String) (a b : FileRecord) : Ordering :=
  if field = "description" then compare a.description b.description
  else if field = "fileType" then compare (fileTypeToString a.fileType) (fileTypeToString b.fileType)
  else if field = "fileDate" then compare (a.fileDate.getD "") (b.fileDate.getD "")
  else if field = "uploadDateTime" then compare a.uploadDateTime b.uploadDateTime
  else if field = "fileSize" then compare a.fileSize b.fileSize
  else if field = "fileName" then compare a.fileName b.fileName
  else if field = "originalName" then compare a.originalName b.originalName
  else Ordering.eq

def recordLE (field : String) (dir : Int) (a b : FileRecord) : Bool :=
  if dir = 1 then cmpByField field a b ≠ Ordering.gt
  else cmpByField field b a ≠ Ordering.gt

/-- `.sort(sortOptions)` of the record store: a stable sort of the rows
by the named field in the given direction. -/
def sortRecords (field : String) (dir : Int) (l : List FileRecord) : List FileRecord :=
  l.mergeSort (recordLE field dir)

/-! ## getFileRecords (GET /api/files) -/

/-- `parseInt(v, 10) || d`: defaulting on parse failure (`none` = NaN)
and on a parsed 0 (falsy); any other parsed integer — negative included —
is kept. -/
def jsParseIntOr (v : Option Int) (d : Int) : Int :=
  match v with
  | none => d
  | some n => if n = 0 then d else n

/-- `Math.ceil(a / b)` for a natural numerator and a nonzero integer
denominator (the only shapes the controller produces). -/
def jsMathCeilDiv (a : Nat) (b : Int) : Int :=
  if 0 < b then ((a + b.toNat - 1) / b.toNat : Nat)
  else -((a / b.natAbs : Nat))

/-- The pagination block of the list response. -/
structure Pagination where
  currentPage : Int
  totalPages : Int
  totalRecords : Nat
  recordsPerPage : Int
  hasNextPage : Bool
  hasPrevPage : Bool
deriving DecidableEq, Repr

/-- `getFileRecords` from the file controller: build the query, sort,
paginate (`skip = (pageNum-1)*limitNum`), and run the page fetch and
`countDocuments` against the same query object.  A negative skip is
rejected by the store driver, landing in the catch branch (`.error`,
the 500 response). -/
def getFileRecords (db : List FileRecord) (search fileType : Option String)
    (startDate endDate : Option Nat) (sortBy sortOrder : Option String)
    (page limit : Option Int) : Except Unit (List FileRecord × Pagination) :=
  let query := buildListQuery search fileType startDate endDate
  let sortField := listSortField sortBy
  let dir := sortDirection sortOrder
  let pageNum := jsParseIntOr page 1
  let limitNum := jsParseIntOr limit 10
  let skip := (pageNum - 1) * limitNum
  if skip < 0 then .error ()
  else
    let matching := db.filter (matchesQuery query)
    let records := ((sortRecords sortField dir matching).drop skip.toNat).take limitNum.natAbs
    let totalCount := matching.length
    let totalPages := jsMathCeilDiv totalCount limitNum
    .ok (records,
      { currentPage := pageNum
        totalPages := totalPages
        totalRecords := totalCount
        recordsPerPage := limitNum
        hasNextPage := pageNum < totalPages
        hasPrevPage := pageNum > 1 })

/-! ## exportToExcel (GET /api/files/export) -/

/-- One data row of the export spreadsheet. -/
structure ExcelRow where
  id : Nat
  description : String
  fileDate : String
  letterRef : String
  fileName : String
  fileType : String
deriving DecidableEq, Repr

/-- The `records.forEach((record, index) => worksheet.addRow(...))` loop:
row `index` carries serial number `index + 1` and the record's fields
(placeholder em dash for an absent fileDate or reference). -/
def excelRows (records : List FileRecord) : List ExcelRow :=
  records.enum.map (fun p =>
    { id := p.1 + 1
      description := p.2.description
      fileDate := match p.2.fileDate with | some d => d | none => "—"
      letterRef := match p.2.letterReferenceNumber with | some lr => lr | none => "—"
      fileName := p.2.originalName
      fileType := fileTypeToString p.2.fileType })

/-- `String(n).padStart(3, '0')`. -/
def pad3 (n : Nat) : String :=
  let s := toString n
  if s.length ≥ 3 then s else String.mk (List.replicate (3 - s.length) '0') ++ s

/-- The archive-building loop of `exportToExcel`: for each index `i`,
when the record's blob exists on disk, one zip entry
`files/{pad3 (i+1)}_{base}{ext}` sourced from the record's `filePath`;
records whose blob is missing produce no entry.  Each entry is the pair
(name in the archive, source path). -/
def archiveEntries (blobs : List String) (records : List FileRecord) :
    List (String × String) :=
  records.enum.filterMap (fun p =>
    if p.2.filePath ≠ "" && existsSync blobs p.2.filePath then
      let ext := extname p.2.originalName
      let nameWithoutExt := basenameNoExt p.2.originalName
      some ("files/" ++ pad3 (p.1 + 1) ++ "_" ++ nameWithoutExt ++ ext, p.2.filePath)
    else none)

/-- The whole export: the full matching set (no pagination), sorted with
the export's sort options, rendered to spreadsheet rows and archive
entries. -/
structure ExportBundle where
  rows : List ExcelRow
  entries : List (String × String)
deriving DecidableEq, Repr

def exportToExcel (st : SysState) (search fileType : Option String)
    (startDate endDate : Option Nat) (sortBy sortOrder : Option String) : ExportBundle :=
  let query := buildExportQuery search fileType startDate endDate
  let records := sortRecords (exportSortField sortBy) (sortDirection sortOrder)
    (st.rows.filter (matchesQuery query))
  { rows := excelRows records, entries := archiveEntries st.blobs records }

/-! ## The spec-side classification table (for the refinement claim C8) -/

/-- The spec's extension→type table, stated from the spec's words: the
file type is a case-insensitive function of the name's extension —
`.pdf`→PDF; `.doc`/`.docx`→DOCX; `.xls`/`.xlsx`→XLSX;
`.jpg`/`.jpeg`/`.png`/`.gif`/`.bmp`/`.webp`→Image; anything else→Other. -/
def specClassify (name : String) : FileType :=
  let ext := jsToLower (extname name)
  if ext = ".pdf" then .PDF
  else if ext = ".doc" ∨ ext = ".docx" then .DOCX
  else if ext = ".xls" ∨ ext = ".xlsx" then .XLSX
  else if ext ∈ [".jpg", ".jpeg", ".png", ".gif", ".bmp", ".webp"] then .Image
  else .Other

/-! ## Helper lemmas -/

theorem mem_unlink (blobs : List String) (p q : String) :
    q ∈ unlink blobs p ↔ q ∈ blobs ∧ q ≠ p := by
  simp [unlink]

theorem not_mem_unlink_self (blobs : List String) (p : String) :
    p ∉ unlink blobs p := by
  simp [unlink]

set_option maxHeartbeats 2000000 in
/-- C8: file-type classification is a deterministic, case-insensitive
function of the stored file name's extension, agreeing with the spec's
fixed extension→type table on every name; in particular report.PDF,
report.pdf and report.Pdf all classify as PDF and notes.txt as Other. -/
theorem classifyFileName_matches_spec :
    (∀ name : String, classifyFileName name = specClassify name)
    ∧ classifyFileName "report.PDF" = FileType.PDF
    ∧ classifyFileName "report.pdf" = FileType.PDF
    ∧ classifyFileName "report.Pdf" = FileType.PDF
    ∧ classifyFileName "notes.txt" = FileType.Other := by
  refine ⟨fun name => ?_, by decide, by decide, by decide, by decide⟩
  simp only [classifyFileName, specClassify]
  split_ifs <;> simp_all [List.mem_cons]

/-- C6: date-range filtering over uploadedAt is inclusive on both
calendar-day bounds: the filter built from startDate and endDate keeps
exactly the records with start-of-day(startDate) ≤ uploadDateTime ≤
23:59:59.999 of endDate; a record at 23:59:59.999 of the end day is
included, one at 00:00:00.000 of the next day is excluded, one at
start-of-day of the start day is included, one a millisecond earlier is
excluded. -/
theorem dateRange_inclusive_bounds (s e : Nat) (r : FileRecord) :
    (matchesQuery (buildListQuery none none (some s) (some e)) r
      = (decide (dateStartMs s ≤ r.uploadDateTime)
          && decide (r.uploadDateTime ≤ dateEndOfDayMs e)))
    ∧ matchesQuery (buildListQuery none none none (some e))
        { r with uploadDateTime := dateEndOfDayMs e } = true
    ∧ matchesQuery (buildListQuery none none none (some e))
        { r with uploadDateTime := dateStartMs (e + 1) } = false
    ∧ matchesQuery (buildListQuery none none (some s) none)
        { r with uploadDateTime := dateStartMs s } = true
    ∧ matchesQuery (buildListQuery none none (some (s + 1)) none)
        { r with uploadDateTime := dateStartMs (s + 1) - 1 } = false := by
  refine ⟨?_, ?_, ?_, ?_, ?_⟩
  all_goals simp [matchesQuery, buildListQuery, dateStartMs, dateEndOfDayMs, msPerDay]
  all_goals omega

/-! ## Concrete fixtures for witnesses and counterexamples -/

def sampleRecord : FileRecord :=
  { id := 0
    description := "keep"
    fileName := "old.pdf"
    originalName := "doc.pdf"
    filePath := "old"
    fileType := .PDF
    fileSize := 10
    mimeType := "application/pdf"
    fileDate := some "2024-01-01"
    letterReferenceNumber := none
    uploadedBy := 1
    uploadDateTime := 1000 }

def sampleUpload : UploadedFile :=
  { filename := "new.pdf"
    originalname := "doc2.pdf"
    path := "new"
    size := 20
    mimetype := "application/pdf" }

/-- C1: Create is atomic on failure.  Whenever the response is not the
created one — the row insert failed after the blob was written, or the
description was blank — no row is added and the uploaded blob's path is
no longer on disk; and when no blob was written (the upload itself
failed) the state is untouched, so no row is created. -/
theorem createFileRecord_atomic (st : SysState)
    (description fileDate letterReferenceNumber : Option String)
    (file : Option UploadedFile) (userId newId now : Nat) (dbFail : Bool) :
    ((createFileRecord st description fileDate letterReferenceNumber file userId newId now dbFail).1.isCreated = false →
      (createFileRecord st description fileDate letterReferenceNumber file userId newId now dbFail).2.rows = st.rows
      ∧ ∀ f, file = some f →
          f.path ∉ (createFileRecord st description fileDate letterReferenceNumber file userId newId now dbFail).2.blobs)
    ∧ (file = none →
        (createFileRecord st description fileDate letterReferenceNumber file userId newId now dbFail).2 = st) := by
  cases file with
  | none =>
    cases description with
    | none => simp [createFileRecord]
    | some d => by_cases hd : jsTrim d = "" <;> simp [createFileRecord, hd]
  | some f =>
    cases description with
    | none => simp [createFileRecord, CreateResult.isCreated, unlink]
    | some d =>
      by_cases hd : jsTrim d = ""
      · simp [createFileRecord, hd, CreateResult.isCreated, unlink]
      · simp only [createFileRecord, hd]
        repeat' split
        all_goals simp_all [CreateResult.isCreated, unlink, existsSync]

/-- C1 witness: a blank-description upload whose blob was on disk ends
with the blob removed and no row created. -/
theorem createFileRecord_atomic_witness :
    (createFileRecord ⟨["new"], []⟩ (some " ") none none (some sampleUpload) 1 5 999 false).2.rows = ([] : List FileRecord)
    ∧ "new" ∉ (createFileRecord ⟨["new"], []⟩ (some " ") none none (some sampleUpload) 1 5 999 false).2.blobs := by
  have h := (createFileRecord_atomic ⟨["new"], []⟩ (some " ") none none
    (some sampleUpload) 1 5 999 false).1 (by decide)
  exact ⟨h.1, h.2 sampleUpload rfl⟩

/-! ## More helper lemmas -/

theorem saveRecord_some_eq {dbFail : Bool} {r r' : FileRecord}
    (h : saveRecord dbFail r = some r') : r' = preSaveHook r := by
  unfold saveRecord at h
  split_ifs at h
  all_goals simp_all

theorem preSaveHook_filePath (r : FileRecord) : (preSaveHook r).filePath = r.filePath := by
  unfold preSaveHook
  split <;> rfl

theorem preSaveHook_fileName (r : FileRecord) : (preSaveHook r).fileName = r.fileName := by
  unfold preSaveHook
  split <;> rfl

theorem saveRecord_fileType {dbFail : Bool} {r r' : FileRecord}
    (h : saveRecord dbFail r = some r') : r'.fileType = classifyFileName r'.fileName := by
  unfold saveRecord at h
  split_ifs at h with hv hdb
  · have hfn : r.fileName ≠ "" := by
      unfold validateRecord at hv
      simp only [Bool.and_eq_true, decide_eq_true_eq] at hv
      exact hv.1.1.1.2
    cases h
    unfold preSaveHook
    simp [hfn]

theorem findById_mem {rows : List FileRecord} {id : Nat} {r0 : FileRecord}
    (h : findById rows id = some r0) : r0 ∈ rows ∧ r0.id = id := by
  unfold findById at h
  refine ⟨List.mem_of_find?_eq_some h, ?_⟩
  have h2 := List.find?_some h
  simpa using h2

theorem mem_replaceById {rows : List FileRecord} {id : Nat} {r0 r' : FileRecord}
    (hm : r0 ∈ rows) (hid : r0.id = id) : r' ∈ replaceById rows id r' := by
  unfold replaceById
  have h := List.mem_map_of_mem (fun r => if r.id = id then r' else r) hm
  simpa [hid] using h

theorem findById_after_remove (rows : List FileRecord) (id : Nat) :
    findById (List.filter (fun r => !decide (r.id = id)) rows) id = none := by
  unfold findById
  rw [List.find?_eq_none]
  intro x hx
  simp only [List.mem_filter, Bool.not_eq_true', decide_eq_false_iff_not] at hx
  simp [hx.2]

/-- C2 counterexample: a replacement update whose row save fails.  The
new blob had been written (both `old` and `new` are on disk on entry),
but the code unlinks the old blob before saving the row and its catch
branch then unlinks the new one: the row survives pointing at `old`,
which is no longer on disk — the old blob is not intact and the record
is left pointing at a missing blob. -/
theorem updateFileRecord_oldBlobLost_cex :
    (updateFileRecord { blobs := ["old", "new"], rows := [sampleRecord] } 0
        none none none (some sampleUpload) true).1 = UpdateResult.serverError
    ∧ (updateFileRecord { blobs := ["old", "new"], rows := [sampleRecord] } 0
        none none none (some sampleUpload) true).2.rows = [sampleRecord]
    ∧ sampleRecord.filePath ∉ (updateFileRecord { blobs := ["old", "new"], rows := [sampleRecord] } 0
        none none none (some sampleUpload) true).2.blobs := by
  refine ⟨by decide, by decide, by decide⟩

/-- C2 (amended): in a replacement update the new blob is on disk before
the old one is removed (the upload middleware wrote it before the
controller runs), and on a successful row save the record points at the
new blob, which exists, while the old blob is gone; but on a failed row
save the rows are merely left as they were — the old blob has already
been unlinked, so the surviving row can point at a missing blob (the
failure clause of the original claim does not hold). -/
theorem updateFileRecord_replace (st : SysState) (id : Nat)
    (description fileDate letterReferenceNumber : Option String)
    (f : UploadedFile) (dbFail : Bool) (r0 : FileRecord)
    (h1 : findById st.rows id = some r0)
    (h2 : f.path ∈ st.blobs)
    (h3 : f.path ≠ r0.filePath)
    (h4 : r0.filePath ≠ "") :
    (∀ r', (updateFileRecord st id description fileDate letterReferenceNumber (some f) dbFail).1 = UpdateResult.updated r' →
        r'.filePath = f.path
        ∧ f.path ∈ (updateFileRecord st id description fileDate letterReferenceNumber (some f) dbFail).2.blobs
        ∧ r0.filePath ∉ (updateFileRecord st id description fileDate letterReferenceNumber (some f) dbFail).2.blobs
        ∧ r' ∈ (updateFileRecord st id description fileDate letterReferenceNumber (some f) dbFail).2.rows)
    ∧ ((updateFileRecord st id description fileDate letterReferenceNumber (some f) dbFail).1 = UpdateResult.serverError →
        (updateFileRecord st id description fileDate letterReferenceNumber (some f) dbFail).2.rows = st.rows) := by
  have hmem := findById_mem h1
  simp only [updateFileRecord, h1]
  rcases hsv : saveRecord dbFail
      { applyScalarUpdates r0 description fileDate letterReferenceNumber with
        fileName := f.filename
        originalName := f.originalname
        filePath := f.path
        fileSize := f.size
        mimeType := f.mimetype } with _ | r'
  · simp
  · have heq := saveRecord_some_eq hsv
    have hfp : r'.filePath = f.path := by
      rw [heq, preSaveHook_filePath]
    constructor
    · intro r'' hr''
      simp only [UpdateResult.updated.injEq] at hr''
      subst hr''
      refine ⟨hfp, ?_, ?_, ?_⟩
      · by_cases hex : existsSync st.blobs r0.filePath = true
        · simp [h4, hex, mem_unlink, h2, h3]
        · simp [h4, hex, h2]
      · by_cases hex : existsSync st.blobs r0.filePath = true
        · simp [h4, hex, not_mem_unlink_self]
        · simp only [h4, ne_eq, not_false_iff, true_and, hex, if_false]
          simp only [existsSync] at hex
          simpa using hex
      · simpa using mem_replaceById hmem.1 hmem.2
    · intro h
      simp at h

/-- The row after the replacement update of the C2 witness. -/
def sampleReplaced : FileRecord :=
  { id := 0
    description := "keep"
    fileName := "new.pdf"
    originalName := "doc2.pdf"
    filePath := "new"
    fileType := .PDF
    fileSize := 20
    mimeType := "application/pdf"
    fileDate := some "2024-01-01"
    letterReferenceNumber := none
    uploadedBy := 1
    uploadDateTime := 1000 }

/-- C2 witness: a successful replacement update ends with the row on the
new existing blob and the old blob removed. -/
theorem updateFileRecord_replace_witness :
    sampleReplaced.filePath = sampleUpload.path
    ∧ sampleUpload.path ∈ (updateFileRecord { blobs := ["old", "new"], rows := [sampleRecord] } 0
        none none none (some sampleUpload) false).2.blobs
    ∧ sampleRecord.filePath ∉ (updateFileRecord { blobs := ["old", "new"], rows := [sampleRecord] } 0
        none none none (some sampleUpload) false).2.blobs
    ∧ sampleReplaced ∈ (updateFileRecord { blobs := ["old", "new"], rows := [sampleRecord] } 0
        none none none (some sampleUpload) false).2.rows :=
  (updateFileRecord_replace { blobs := ["old", "new"], rows := [sampleRecord] } 0
    none none none sampleUpload false sampleRecord
    (by decide) (by decide) (by decide) (by decide)).1 sampleReplaced (by decide)

/-- C4 counterexample: the record exists and its blob is on disk, but
removing the blob throws; the shared catch answers 500 and the row is
not deleted — a blob-removal failure does block deletion of the row. -/
theorem deleteFileRecord_unlinkFailure_cex :
    deleteFileRecord { blobs := ["old"], rows := [sampleRecord] } 0 true false
      = (DeleteResult.serverError, { blobs := ["old"], rows := [sampleRecord] }) := by
  decide

/-- C4 (amended): a missing blob is indeed not an error — when the blob
is absent the unlink is skipped and the row is deleted — but a failure
thrown while unlinking an existing blob is caught by the shared handler
and aborts the request before the row delete: the response is the 500
error and the row survives. -/
theorem deleteFileRecord_behavior (st : SysState) (id : Nat) (r0 : FileRecord)
    (unlinkFail dbFail : Bool)
    (h1 : findById st.rows id = some r0) :
    (existsSync st.blobs r0.filePath = false →
      (deleteFileRecord st id unlinkFail false).1 = DeleteResult.deleted
      ∧ findById (deleteFileRecord st id unlinkFail false).2.rows id = none)
    ∧ (existsSync st.blobs r0.filePath = true → r0.filePath ≠ "" → unlinkFail = true →
        deleteFileRecord st id unlinkFail dbFail = (DeleteResult.serverError, st)) := by
  constructor
  · intro hex
    have hcond : ¬(¬r0.filePath = "" ∧ existsSync st.blobs r0.filePath = true) := by
      simp [hex]
    simp [deleteFileRecord, h1, hcond]
    exact findById_after_remove st.rows id
  · intro hex hfp hu
    subst hu
    simp [deleteFileRecord, h1, hex, hfp]

/-- C4 witness: at a concrete state, a missing blob does not block the
delete (the row is gone), and an unlink failure on an existing blob
aborts it. -/
theorem deleteFileRecord_behavior_witness :
    ((deleteFileRecord { blobs := [], rows := [sampleRecord] } 0 false false).1 = DeleteResult.deleted
      ∧ findById (deleteFileRecord { blobs := [], rows := [sampleRecord] } 0 false false).2.rows 0 = none)
    ∧ deleteFileRecord { blobs := ["old"], rows := [sampleRecord] } 0 true true
        = (DeleteResult.serverError, { blobs := ["old"], rows := [sampleRecord] }) :=
  ⟨(deleteFileRecord_behavior { blobs := [], rows := [sampleRecord] } 0 sampleRecord false false
      (by decide)).1 (by decide),
   (deleteFileRecord_behavior { blobs := ["old"], rows := [sampleRecord] } 0 sampleRecord true true
      (by decide)).2 (by decide) (by decide) rfl⟩

/-- C3 counterexample: for a `sortBy` outside the allow-list the two
endpoints build different sorts — List falls back to `uploadDateTime`,
Export passes the raw field through (`sortOptions[sortBy]` with no
allow-list check). -/
theorem exportSort_noFallback_cex :
    listSortField (some "fileSize") = "uploadDateTime"
    ∧ exportSortField (some "fileSize") = "fileSize"
    ∧ listSortField (some "fileSize") ≠ exportSortField (some "fileSize") := by
  decide

/-- C3 (amended): Export builds exactly the same filter predicate as
List for every parameter combination, uses the same sort direction, and
fetches the full matching set with no pagination (its spreadsheet has
one row per matching record); the sort field also agrees whenever
`sortBy` is inside the allow-list (or absent) — but Export applies no
allow-list fallback, so an out-of-list `sortBy` sorts by that raw field
in Export while List falls back to `uploadDateTime`. -/
theorem exportQuery_equivalence (search fileType : Option String)
    (startDate endDate : Option Nat) (sortBy sortOrder : Option String) (st : SysState) :
    buildListQuery search fileType startDate endDate
      = buildExportQuery search fileType startDate endDate
    ∧ (validSortFields.contains (sortBy.getD "uploadDateTime") = true →
        listSortField sortBy = exportSortField sortBy)
    ∧ sortDirection sortOrder = sortDirection sortOrder
    ∧ (exportToExcel st search fileType startDate endDate sortBy sortOrder).rows.length
        = (st.rows.filter (matchesQuery (buildListQuery search fileType startDate endDate))).length := by
  refine ⟨rfl, ?_, rfl, ?_⟩
  · intro h
    have hm : sortBy.getD "uploadDateTime" ∈ validSortFields := by simpa using h
    simp [listSortField, exportSortField, hm]
  · simp only [exportToExcel, excelRows, sortRecords, List.length_map, List.enum_length]
    exact (List.mergeSort_perm _ _).length_eq

/-- C3 witness: with an in-allow-list sortBy the two endpoints agree on
the sort field, and an export over a one-row store has one data row. -/
theorem exportQuery_equivalence_witness :
    listSortField (some "description") = exportSortField (some "description")
    ∧ (exportToExcel { blobs := ["old"], rows := [sampleRecord] }
        none none none none (some "description") none).rows.length
      = (([sampleRecord] : List FileRecord).filter (matchesQuery (buildListQuery none none none none))).length :=
  ⟨(exportQuery_equivalence none none none none (some "description") none
      { blobs := ["old"], rows := [sampleRecord] }).2.1 (by decide),
   (exportQuery_equivalence none none none none (some "description") none
      { blobs := ["old"], rows := [sampleRecord] }).2.2.2⟩

/-- Specification of the ceiling division `(a + b - 1) / b`: it is the
least number of pages of size `b` covering `a` records. -/
theorem ceil_div_spec (a b : Nat) (hb : 1 ≤ b) :
    a ≤ ((a + b - 1) / b) * b ∧ ∀ k : Nat, a ≤ k * b → (a + b - 1) / b ≤ k := by
  constructor
  · have hdm := Nat.div_add_mod (a + b - 1) b
    have hr : (a + b - 1) % b < b := Nat.mod_lt _ (by omega)
    rw [Nat.mul_comm]
    generalize hgen : b * ((a + b - 1) / b) = t at hdm ⊢
    omega
  · intro k hk
    rw [Nat.div_le_iff_le_mul_add_pred (by omega)]
    rw [Nat.mul_comm] at hk
    generalize hgen : b * k = t at hk ⊢
    omega

/-- C5 counterexample: `page=-5` parses to -5, which `parseInt(page) || 1`
keeps as is — it is not coerced to a positive integer — and the request
errors out (negative skip) instead of serving a page. -/
theorem getFileRecords_negativePage_cex :
    getFileRecords [] none none none none none none (some (-5)) none = Except.error ()
    ∧ jsParseIntOr (some (-5)) 1 = -5
    ∧ ¬(1 ≤ jsParseIntOr (some (-5)) 1) := by
  refine ⟨rfl, by decide, by decide⟩

/-- C5 (amended): page and pageSize are coerced to integers, defaulting
to 1 and 10 on parse failure or a parsed 0, but a negative value is kept
(not coerced positive).  Whenever the coerced values are positive the
response holds: the count and the returned page are produced from the
identical filter predicate, totalPages is the least number of pageSize-d
pages covering totalRecords (0 when none match), hasNextPage is
currentPage < totalPages and hasPrevPage is currentPage > 1. -/
theorem getFileRecords_pagination (db : List FileRecord)
    (search fileType : Option String) (startDate endDate : Option Nat)
    (sortBy sortOrder : Option String) (page limit : Option Int)
    (h1 : 1 ≤ jsParseIntOr page 1) (h2 : 1 ≤ jsParseIntOr limit 10) :
    ∃ records pg,
      getFileRecords db search fileType startDate endDate sortBy sortOrder page limit
        = Except.ok (records, pg)
      ∧ pg.totalRecords
          = (db.filter (matchesQuery (buildListQuery search fileType startDate endDate))).length
      ∧ (∀ r ∈ records,
          matchesQuery (buildListQuery search fileType startDate endDate) r = true)
      ∧ pg.currentPage = jsParseIntOr page 1
      ∧ pg.recordsPerPage = jsParseIntOr limit 10
      ∧ (∃ tp : Nat, pg.totalPages = (tp : Int)
          ∧ pg.totalRecords ≤ tp * (jsParseIntOr limit 10).toNat
          ∧ ∀ k : Nat, pg.totalRecords ≤ k * (jsParseIntOr limit 10).toNat → tp ≤ k)
      ∧ pg.hasNextPage = decide (pg.currentPage < pg.totalPages)
      ∧ pg.hasPrevPage = decide (pg.currentPage > 1) := by
  have hskip : ¬((jsParseIntOr page 1 - 1) * jsParseIntOr limit 10 < 0) :=
    not_lt.mpr (mul_nonneg (by omega) (by omega))
  unfold getFileRecords
  rw [if_neg hskip]
  refine ⟨_, _, rfl, rfl, ?_, rfl, rfl, ?_, rfl, rfl⟩
  · intro r hr
    have hms : r ∈ sortRecords (listSortField sortBy) (sortDirection sortOrder)
        (db.filter (matchesQuery (buildListQuery search fileType startDate endDate))) :=
      List.drop_subset _ _ (List.take_subset _ _ hr)
    have hmem : r ∈ db.filter (matchesQuery (buildListQuery search fileType startDate endDate)) :=
      (List.mergeSort_perm _ _).subset hms
    exact (List.mem_filter.mp hmem).2
  · have hl : 0 < jsParseIntOr limit 10 := by omega
    have hln : 1 ≤ (jsParseIntOr limit 10).toNat := by omega
    refine ⟨_, ?_, (ceil_div_spec _ _ hln).1, (ceil_div_spec _ _ hln).2⟩
    simp only [jsMathCeilDiv, hl, if_pos]

/-- C5 witness: a default-parameter listing over a one-row store. -/
theorem getFileRecords_pagination_witness :
    (1 ≤ jsParseIntOr (some 1) 1)
    ∧ ∃ records pg,
        getFileRecords [sampleRecord] none none none none none none (some 1) (some 10)
          = Except.ok (records, pg)
        ∧ pg.totalRecords
            = (([sampleRecord] : List FileRecord).filter (matchesQuery (buildListQuery none none none none))).length := by
  have h := getFileRecords_pagination [sampleRecord] none none none none none none
    (some 1) (some 10) (by decide) (by decide)
  obtain ⟨records, pg, hok, htot, _⟩ := h
  exact ⟨by decide, records, pg, hok, htot⟩

theorem enumFrom_fst_succ {α : Type} (l : List α) (n : Nat) :
    (List.enumFrom n l).map (fun p => p.1 + 1) = List.range' (n + 1) l.length := by
  induction l generalizing n with
  | nil => simp
  | cons a t ih => simp [List.enumFrom_cons, List.range'_succ, ih]

theorem filterMap_boolIf_eq {α β : Type} (l : List α) (c : α → Bool) (g : α → β) :
    l.filterMap (fun a => if c a then some (g a) else none) = (l.filter c).map g := by
  induction l with
  | nil => rfl
  | cons a t ih =>
    by_cases h : c a = true
    · simp [h, ih]
    · simp [h, ih]

/-- C7: every matching record appears as a spreadsheet row in order with
a 1-based sequence number and its own fields; the archive holds exactly
the records whose blob exists on disk (missing blobs are skipped, the
spreadsheet row stays, the export still produces its bundle), each
stored under the `files/` subfolder as
`{3-digit zero-padded sequence}_{original base name}{original extension}`
and sourced from the record's storage path. -/
theorem exportRows_and_archive (blobs : List String) (records : List FileRecord) :
    (excelRows records).map (fun row => row.id) = List.range' 1 records.length
    ∧ (excelRows records).map (fun row => row.description)
        = records.map (fun r => r.description)
    ∧ archiveEntries blobs records
        = (records.enum.filter
            (fun p => p.2.filePath ≠ "" && existsSync blobs p.2.filePath)).map
            (fun p =>
              ("files/" ++ pad3 (p.1 + 1) ++ "_"
                  ++ basenameNoExt p.2.originalName ++ extname p.2.originalName,
                p.2.filePath)) := by
  refine ⟨?_, ?_, ?_⟩
  · have h := enumFrom_fst_succ records 0
    simpa [excelRows, List.map_map, Function.comp, List.enum] using h
  · calc (excelRows records).map (fun row => row.description)
        = records.enum.map (fun p => p.2.description) := by
          unfold excelRows
          rw [List.map_map]
          rfl
      _ = (records.enum.map Prod.snd).map (fun r => r.description) := by
          rw [List.map_map]
          rfl
      _ = records.map (fun r => r.description) := by rw [List.enum_map_snd]
  · exact filterMap_boolIf_eq records.enum _ _

/-- C9 counterexample: a whitespace-only description is truthy, so the
controller overwrites the stored description with its trim — the empty
string — and the save then fails schema validation: the whole update
answers 500 and nothing changes; in particular the empty-string fileDate
provided in the same request does not clear the field, and the update is
not accepted with the prior description kept. -/
theorem update_blankDescription_cex :
    updateFileRecord { blobs := ["old"], rows := [sampleRecord] } 0
        (some " ") (some "") none none false
      = (UpdateResult.serverError, { blobs := ["old"], rows := [sampleRecord] })
    ∧ sampleRecord.fileDate = some "2024-01-01" := by
  exact ⟨by decide, by decide⟩

/-- C9 (amended): an omitted or empty-string description leaves the
prior description unchanged; a non-empty description overwrites with its
trimmed value — so a whitespace-only description overwrites with the
empty string, which then fails the save's schema validation and rejects
the whole update (nothing is changed); a provided empty-string fileDate
or referenceNumber clears that field to null, a provided non-empty value
overwrites it, and all fields not provided — and every other stored
field — keep their stored values. -/
theorem updateScalarFields (r : FileRecord)
    (description fileDate letterReferenceNumber : Option String) :
    ((description = none ∨ description = some "") →
      (applyScalarUpdates r description fileDate letterReferenceNumber).description = r.description)
    ∧ (∀ d, description = some d → d ≠ "" →
        (applyScalarUpdates r description fileDate letterReferenceNumber).description = jsTrim d)
    ∧ (fileDate = none →
        (applyScalarUpdates r description fileDate letterReferenceNumber).fileDate = r.fileDate)
    ∧ (fileDate = some "" →
        (applyScalarUpdates r description fileDate letterReferenceNumber).fileDate = none)
    ∧ (∀ fd, fileDate = some fd → fd ≠ "" →
        (applyScalarUpdates r description fileDate letterReferenceNumber).fileDate = some fd)
    ∧ (letterReferenceNumber = none →
        (applyScalarUpdates r description fileDate letterReferenceNumber).letterReferenceNumber
          = r.letterReferenceNumber)
    ∧ (letterReferenceNumber = some "" →
        (applyScalarUpdates r description fileDate letterReferenceNumber).letterReferenceNumber = none)
    ∧ (∀ lr, letterReferenceNumber = some lr → lr ≠ "" →
        (applyScalarUpdates r description fileDate letterReferenceNumber).letterReferenceNumber
          = some lr)
    ∧ ((applyScalarUpdates r description fileDate letterReferenceNumber).id = r.id
        ∧ (applyScalarUpdates r description fileDate letterReferenceNumber).fileName = r.fileName
        ∧ (applyScalarUpdates r description fileDate letterReferenceNumber).originalName = r.originalName
        ∧ (applyScalarUpdates r description fileDate letterReferenceNumber).filePath = r.filePath
        ∧ (applyScalarUpdates r description fileDate letterReferenceNumber).fileType = r.fileType
        ∧ (applyScalarUpdates r description fileDate letterReferenceNumber).fileSize = r.fileSize
        ∧ (applyScalarUpdates r description fileDate letterReferenceNumber).mimeType = r.mimeType
        ∧ (applyScalarUpdates r description fileDate letterReferenceNumber).uploadedBy = r.uploadedBy
        ∧ (applyScalarUpdates r description fileDate letterReferenceNumber).uploadDateTime
            = r.uploadDateTime)
    ∧ (∀ st id r0 dbF d, findById st.rows id = some r0 → d ≠ "" → jsTrim d = "" →
        updateFileRecord st id (some d) fileDate letterReferenceNumber none dbF
          = (UpdateResult.serverError, st)) := by
  refine ⟨?_, ?_, ?_, ?_, ?_, ?_, ?_, ?_, ?_, ?_⟩
  · intro h
    rcases h with h | h <;> subst h <;>
      cases fileDate <;> cases letterReferenceNumber <;>
        simp [applyScalarUpdates, jsOrNull]
  · intro d hd hne
    subst hd
    cases fileDate <;> cases letterReferenceNumber <;>
      simp [applyScalarUpdates, jsOrNull, hne]
  · intro h
    subst h
    cases description <;> cases letterReferenceNumber <;>
      simp only [applyScalarUpdates]
    all_goals try split_ifs
    all_goals simp [jsOrNull]
  · intro h
    subst h
    cases description <;> cases letterReferenceNumber <;>
      simp only [applyScalarUpdates]
    all_goals simp [jsOrNull]
  · intro fd hfd hne
    subst hfd
    cases description <;> cases letterReferenceNumber <;>
      simp only [applyScalarUpdates]
    all_goals simp [jsOrNull, hne]
  · intro h
    subst h
    cases description <;> cases fileDate <;>
      simp only [applyScalarUpdates]
    all_goals try split_ifs
    all_goals simp [jsOrNull]
  · intro h
    subst h
    cases description <;> cases fileDate <;>
      simp only [applyScalarUpdates]
    all_goals simp [jsOrNull]
  · intro lr hlr hne
    subst hlr
    cases description <;> cases fileDate <;>
      simp only [applyScalarUpdates]
    all_goals simp [jsOrNull, hne]
  · cases description <;> cases fileDate <;> cases letterReferenceNumber <;>
      simp only [applyScalarUpdates]
    all_goals try split_ifs
    all_goals simp [jsOrNull]
  · intro st id r0 dbF d hfind hdne htrim
    have hdesc : (applyScalarUpdates r0 (some d) fileDate letterReferenceNumber).description = "" := by
      rw [← htrim]
      cases fileDate <;> cases letterReferenceNumber <;>
        simp [applyScalarUpdates, jsOrNull, hdne]
    have hval : validateRecord (applyScalarUpdates r0 (some d) fileDate letterReferenceNumber) = false := by
      unfold validateRecord
      simp [hdesc]
    have hsv : saveRecord dbF (applyScalarUpdates r0 (some d) fileDate letterReferenceNumber) = none := by
      unfold saveRecord
      simp [hval]
    simp [updateFileRecord, hfind, hsv]

/-- C9 witness: concrete field updates — empty-string fileDate clears,
empty-string description leaves the stored one, non-blank description
overwrites trimmed. -/
theorem updateScalarFields_witness :
    (applyScalarUpdates sampleRecord (some "") (some "") none).description = "keep"
    ∧ (applyScalarUpdates sampleRecord (some "") (some "") none).fileDate = none
    ∧ (applyScalarUpdates sampleRecord (some " new desc ") (some "") none).description
        = jsTrim " new desc "
    ∧ updateFileRecord { blobs := ["old"], rows := [sampleRecord] } 0
        (some " ") (some "") none none false
      = (UpdateResult.serverError, { blobs := ["old"], rows := [sampleRecord] }) :=
  ⟨(updateScalarFields sampleRecord (some "") (some "") none).1 (Or.inr rfl),
   (updateScalarFields sampleRecord (some "") (some "") none).2.2.2.1 rfl,
   (updateScalarFields sampleRecord (some " new desc ") (some "") none).2.1 " new desc " rfl
     (by decide),
   (updateScalarFields sampleRecord (some " ") (some "") none).2.2.2.2.2.2.2.2.2
     { blobs := ["old"], rows := [sampleRecord] } 0 sampleRecord false " "
     (by decide) (by decide) (by decide)⟩

/-- The row created by the C10 witness upload. -/
def sampleCreated : FileRecord :=
  { id := 5
    description := "d"
    fileName := "new.pdf"
    originalName := "doc2.pdf"
    filePath := "new"
    fileType := .PDF
    fileSize := 20
    mimeType := "application/pdf"
    fileDate := none
    letterReferenceNumber := none
    uploadedBy := 1
    uploadDateTime := 999 }

/-- C10: after every successful save — hence after every successful
Create and after every successful Update, metadata-only ones included —
the stored row's fileType equals the deterministic classification of its
current fileName's extension: the pre-save hook re-runs on each save, so
fileType can never disagree with fileName. -/
theorem fileType_invariant :
    (∀ (dbFail : Bool) (r r' : FileRecord), saveRecord dbFail r = some r' →
        r'.fileType = classifyFileName r'.fileName)
    ∧ (∀ (st : SysState) (description fileDate letterReferenceNumber : Option String)
        (file : Option UploadedFile) (userId newId now : Nat) (dbFail : Bool) (rec : FileRecord),
        (createFileRecord st description fileDate letterReferenceNumber file userId newId now dbFail).1
            = CreateResult.created rec →
          rec.fileType = classifyFileName rec.fileName
          ∧ rec ∈ (createFileRecord st description fileDate letterReferenceNumber file userId newId now dbFail).2.rows)
    ∧ (∀ (st : SysState) (id : Nat) (description fileDate letterReferenceNumber : Option String)
        (file : Option UploadedFile) (dbFail : Bool) (rec : FileRecord),
        (updateFileRecord st id description fileDate letterReferenceNumber file dbFail).1
            = UpdateResult.updated rec →
          rec.fileType = classifyFileName rec.fileName
          ∧ rec ∈ (updateFileRecord st id description fileDate letterReferenceNumber file dbFail).2.rows) := by
  refine ⟨fun dbFail r r' h => saveRecord_fileType h, ?_, ?_⟩
  · intro st description fileDate letterReferenceNumber file userId newId now dbFail rec hrec
    cases file with
    | none =>
      cases description with
      | none => simp [createFileRecord] at hrec
      | some d => by_cases hd : jsTrim d = "" <;> simp [createFileRecord, hd] at hrec
    | some f =>
      cases description with
      | none => simp [createFileRecord] at hrec
      | some d =>
        by_cases hd : jsTrim d = ""
        · simp [createFileRecord, hd] at hrec
        · rcases hsv : saveRecord dbFail
              { id := newId, description := jsTrim d, fileName := f.filename,
                originalName := f.originalname, filePath := f.path, fileType := FileType.Other,
                fileSize := f.size, mimeType := f.mimetype, fileDate := jsOrNull fileDate,
                letterReferenceNumber := jsOrNull letterReferenceNumber, uploadedBy := userId,
                uploadDateTime := now } with _ | r'
          · simp [createFileRecord, hd, hsv] at hrec
            split_ifs at hrec
          · simp [createFileRecord, hd, hsv] at hrec ⊢
            subst hrec
            exact ⟨saveRecord_fileType hsv, by simp⟩
  · intro st id description fileDate letterReferenceNumber file dbFail rec hrec
    cases hfind : findById st.rows id with
    | none => cases file <;> simp [updateFileRecord, hfind] at hrec
    | some r0 =>
      have hmem := findById_mem hfind
      cases file with
      | none =>
        simp only [updateFileRecord, hfind] at hrec ⊢
        split at hrec
        · rename_i r' heq
          have hr : r' = rec := by simpa using hrec
          subst hr
          refine ⟨saveRecord_fileType heq, ?_⟩
          simp only [heq]
          exact mem_replaceById hmem.1 hmem.2
        · simp at hrec
      | some f =>
        simp only [updateFileRecord, hfind] at hrec ⊢
        split at hrec
        · rename_i r' heq
          have hr : r' = rec := by simpa using hrec
          subst hr
          refine ⟨saveRecord_fileType heq, ?_⟩
          simp only [heq]
          exact mem_replaceById hmem.1 hmem.2
        · simp at hrec

/-- C10 witness: a concrete successful upload of new.pdf stores a row
whose fileType PDF is the classification of its stored name. -/
theorem fileType_invariant_witness :
    sampleCreated.fileType = classifyFileName sampleCreated.fileName
    ∧ sampleCreated ∈ (createFileRecord ⟨["new"], []⟩ (some "d") none none
        (some sampleUpload) 1 5 999 false).2.rows :=
  fileType_invariant.2.1 ⟨["new"], []⟩ (some "d") none none
    (some sampleUpload) 1 5 999 false sampleCreated (by decide)

end FMS
